import Mathlib

/-!
Verification development for the `vastwatch` repository (GPU marketplace
monitor).  The Python sources `client.py` and `report.py` are shallowly
embedded below:

* Python's heterogeneous JSON-ish values become the inductive type `Val`;
  a Python float is a `PyF`: a finite rational or one of the IEEE
  specials NaN / +infinity / -infinity, which `resp.json()` can deliver.
* The normalizer `normalize` (client.py) is embedded as `normalizeE`,
  returning `Except Unit Canonical` so that its two uncaught Python
  failure paths are visible as `.error`: the `", ".join` over non-string
  city/country values in `_normalize_geo`, and `int(x)` applied to a
  NaN/infinity float in `_to_bool_int`.
* The retry engine `search_offers` (client.py) is embedded as
  `searchOffersModel`, driven by a script assigning one upstream response
  to each attempt; sleeping/backoff timing is abstracted away.
* The occupancy aggregator `_run_occupancy` (report.py) is embedded over
  integer epoch-second timestamps.  All duration accounting is exact
  integer arithmetic (the Python floats carry exactly these integer
  values).  Emitted rounded values are represented as scaled integers:
  hour columns in thousandths of an hour and percentage columns in
  hundredths of a percent, produced by `rheDiv`, the round-half-to-even
  division that `round(x, 3)` / `round(x, 2)` perform on these exact
  quotients.  This keeps every emitted value exact and order-isomorphic
  to the Python floats.
-/

namespace VastWatch

/-- Decidable equality for `Except`, used to state and check concrete
evaluations of the normalizer. -/
instance exceptDecEq {ε α : Type} [DecidableEq ε] [DecidableEq α] :
    DecidableEq (Except ε α) := fun a b =>
  match a, b with
  | .error e, .error f =>
    if h : e = f then .isTrue (congrArg _ h)
    else .isFalse (fun hh => h (by cases hh; rfl))
  | .ok x, .ok y =>
    if h : x = y then .isTrue (congrArg _ h)
    else .isFalse (fun hh => h (by cases hh; rfl))
  | .error _, .ok _ => .isFalse (fun hh => Except.noConfusion hh)
  | .ok _, .error _ => .isFalse (fun hh => Except.noConfusion hh)

/-- A Python float value: a finite value (modelled as a rational) or one
of the IEEE specials, which the upstream JSON decoder accepts. -/
inductive PyF
  | fin (q : ℚ)
  | nan
  | inf
  | ninf
deriving DecidableEq

/-- Python `a < b` on floats for the shapes the normalizer compares:
every comparison against NaN is false; the infinities compare in the
usual way. -/
def pyLt : PyF → PyF → Bool
  | .nan, _ => false
  | _, .nan => false
  | .fin a, .fin b => a < b
  | .fin _, .inf => true
  | .fin _, .ninf => false
  | .inf, _ => false
  | .ninf, .ninf => false
  | .ninf, _ => true

/-- Float division by a positive finite constant (the `1024 ** 3` / `1024`
divisors of the VRAM heuristics): specials pass through unchanged. -/
def pyDivPos (f : PyF) (d : ℚ) : PyF :=
  match f with
  | .fin q => .fin (q / d)
  | .nan => .nan
  | .inf => .inf
  | .ninf => .ninf

/-- A Python runtime value as it occurs in raw offer records: `None`,
booleans, ints, floats (finite or special), and strings. -/
inductive Val
  | vNull
  | vBool (b : Bool)
  | vInt (n : Int)
  | vFloat (f : PyF)
  | vStr (s : String)
deriving DecidableEq

/-- A raw offer record: a string-keyed mapping of heterogeneous values
(`Dict[str, Any]` in the source). -/
def RawOffer := List (String × Val)

/-- `offer.get(k)`; a missing key behaves exactly like a stored `None`. -/
def getVal (o : RawOffer) (k : String) : Val :=
  match o.find? (fun p => p.1 = k) with
  | some p => p.2
  | none => .vNull

/-- Python truthiness of a value (`bool(nan)` and `bool(inf)` are
`True`). -/
def truthy : Val → Bool
  | .vNull => false
  | .vBool b => b
  | .vInt n => n != 0
  | .vFloat (.fin q) => q.num != 0
  | .vFloat _ => true
  | .vStr s => s != ""

/-- Python `a or b`: the first operand if truthy, else the second. -/
def pyOr (a b : Val) : Val :=
  if truthy a then a else b

/-- ASCII lower-casing of one character, as `str.lower` does on the ASCII
tokens compared by the source. -/
def lowerChar (c : Char) : Char :=
  if 'A' ≤ c ∧ c ≤ 'Z' then Char.ofNat (c.toNat + 32) else c

/-- Whitespace stripped by `str.strip` (ASCII whitespace suffices for the
tokens the source compares). -/
def isPySpace (c : Char) : Bool :=
  c = ' ' ∨ c = '\t' ∨ c = '\n' ∨ c = '\r'

/-- Python `s.strip()`. -/
def pyStrip (s : String) : String :=
  String.mk (((s.data.dropWhile isPySpace).reverse.dropWhile isPySpace).reverse)

/-- Python `s.lower()` (ASCII range). -/
def pyLower (s : String) : String :=
  String.mk (s.data.map lowerChar)

/-- Whether a character list starts with a decimal digit. -/
def headIsDigit : List Char → Bool
  | d :: _ => d.isDigit
  | [] => false

/-- Accumulate a run of decimal digits: value, number of digits, rest.
An underscore is accepted as a grouping separator when it sits between
two digits, exactly as Python numeric literals allow. -/
def takeDigitsAux : List Char → Nat → Nat → Nat × Nat × List Char
  | c :: cs, v, n =>
    if c.isDigit then takeDigitsAux cs (v * 10 + (c.toNat - 48)) (n + 1)
    else if c = '_' ∧ 0 < n ∧ headIsDigit cs then takeDigitsAux cs v n
    else (v, n, c :: cs)
  | [], v, n => (v, n, [])

/-- An optional leading `+`/`-` sign. -/
def parseSign : List Char → Int × List Char
  | '+' :: cs => (1, cs)
  | '-' :: cs => (-1, cs)
  | cs => (1, cs)

/-- Python `int(s)` on a string: optional sign and a nonempty digit run
with optional underscore grouping (after stripping); anything else
fails. -/
def parseIntStr (s : String) : Option Int :=
  let cs := (pyStrip s).data
  let (sgn, cs1) := parseSign cs
  let (v, n, rest) := takeDigitsAux cs1 0 0
  if n = 0 ∨ rest ≠ [] then none else some (sgn * v)

/-- Python `float(s)` on a string: sign, then either an `inf` /
`infinity` / `nan` spelling or a decimal mantissa with optional
underscore grouping and optional exponent. -/
def parseFloatStr (s : String) : Option PyF :=
  let cs := (pyLower (pyStrip s)).data
  let (sgn, cs1) := parseSign cs
  if cs1 = ['i', 'n', 'f'] ∨ cs1 = ['i', 'n', 'f', 'i', 'n', 'i', 't', 'y'] then
    some (if sgn < 0 then .ninf else .inf)
  else if cs1 = ['n', 'a', 'n'] then some .nan
  else
    let (ip, ipn, cs2) := takeDigitsAux cs1 0 0
    let (fp, fpn, cs3) :=
      match cs2 with
      | '.' :: rest => takeDigitsAux rest 0 0
      | _ => (0, 0, cs2)
    if ipn + fpn = 0 then none
    else
      let mant : ℚ := (sgn * (ip * 10 ^ fpn + fp) : Int) / ((10 : ℚ) ^ fpn)
      match cs3 with
      | [] => some (.fin mant)
      | 'e' :: rest =>
        let (esgn, rest1) := parseSign rest
        let (ev, evn, rest2) := takeDigitsAux rest1 0 0
        if evn = 0 ∨ rest2 ≠ [] then none
        else some (.fin (mant * (10 : ℚ) ^ (esgn * (ev : Int))))
      | _ => none

/-- Python `int(x)` truncates a float toward zero. -/
def ratTrunc (q : ℚ) : Int :=
  q.num.tdiv (q.den : Int)

/-- Python `float(x)`: `None` and unparseable values fail; bools map to
0/1; floats (specials included) pass through. -/
def pyFloat : Val → Option PyF
  | .vNull => none
  | .vBool b => some (.fin (if b then 1 else 0))
  | .vInt n => some (.fin (n : ℚ))
  | .vFloat f => some f
  | .vStr s => parseFloatStr s

/-- Python `int(x)`: `None`, unparseable strings and NaN/infinity floats
raise (here: fail); finite floats truncate toward zero. -/
def pyInt : Val → Option Int
  | .vNull => none
  | .vBool b => some (if b then 1 else 0)
  | .vInt n => some n
  | .vFloat (.fin q) => some (ratTrunc q)
  | .vFloat _ => none
  | .vStr s => parseIntStr s

/-- `_to_float` (client.py): `None` stays `None`; otherwise best-effort
float parse, `None` on failure. -/
def toFloat (v : Val) : Option PyF :=
  match v with
  | .vNull => none
  | _ => pyFloat v

/-- `_to_int` (client.py): best-effort int parse, `0` on failure (the
`int(x)` exception is caught here, unlike in `_to_bool_int`). -/
def toInt (v : Val) : Int :=
  (pyInt v).getD 0

/-- `_to_bool_int` (client.py): tri-state boolean coercion to
`some 1` / `some 0` / `none` — except that a NaN or infinity float
reaches `int(x)` outside any try/except, so the call raises
(client.py line 232). -/
def toBoolInt : Val → Except Unit (Option Int)
  | .vNull => .ok none
  | .vBool b => .ok (some (if b then 1 else 0))
  | .vInt n => .ok (some (if n ≠ 0 then 1 else 0))
  | .vFloat (.fin q) => .ok (some (if ratTrunc q ≠ 0 then 1 else 0))
  | .vFloat _ => .error ()
  | .vStr s =>
    let l := pyLower (pyStrip s)
    if l = "1" ∨ l = "true" ∨ l = "yes" ∨ l = "y" ∨ l = "on" then .ok (some 1)
    else if l = "0" ∨ l = "false" ∨ l = "no" ∨ l = "n" ∨ l = "off" then .ok (some 0)
    else .ok none

/-- The candidate-scanning loop of `_normalize_vram_gb` (client.py):
skip `None` and unparseable candidates; convert the first remaining one
with the magnitude heuristics. -/
def vramScan : List Val → Option PyF
  | [] => none
  | v :: rest =>
    if v = .vNull then vramScan rest
    else
      match pyFloat v with
      | none => vramScan rest
      | some f =>
        if pyLt (.fin 1000000) f then some (pyDivPos f (1024 ^ 3))
        else if pyLt (.fin 200) f then some (pyDivPos f 1024) else some f

/-- `_normalize_vram_gb` (client.py): four candidate fields in fixed
priority order. -/
def normalizeVramGb (o : RawOffer) : Option PyF :=
  vramScan
    [getVal o "gpu_total_ram_gb", getVal o "gpu_total_ram",
     getVal o "gpu_ram", getVal o "gpu_mem"]

/-- Python `str(x)` for the value shapes reaching `_normalize_geo`'s
`str(geo)` call (float spelling is abstracted by the rational's own
representation, which no claim depends on). -/
def pyStr : Val → String
  | .vNull => "None"
  | .vBool b => if b then "True" else "False"
  | .vInt n => toString n
  | .vFloat (.fin q) => toString q
  | .vFloat .nan => "nan"
  | .vFloat .inf => "inf"
  | .vFloat .ninf => "-inf"
  | .vStr s => s

/-- `", ".join(items)`: fails (Python `TypeError`) unless every item is a
string. -/
def joinComma (vs : List Val) : Except Unit String :=
  match vs.mapM (fun v => match v with | .vStr s => some s | _ => none) with
  | some ss => .ok (String.intercalate ", " ss)
  | none => .error ()

/-- `_normalize_geo` (client.py).  The `", ".join` over the truthy members
of `[city, country]` is one of the normalizer's two failure paths (the
other is `_to_bool_int` on a NaN/infinity float). -/
def normalizeGeo (o : RawOffer) : Except Unit (Option String) :=
  let geo := pyOr (pyOr (getVal o "geolocation") (getVal o "country")) (getVal o "region")
  if truthy geo then .ok (some (pyStr geo))
  else
    let city := getVal o "city"
    let country := pyOr (getVal o "country_code") (getVal o "country")
    if truthy city || truthy country then
      (joinComma ([city, country].filter truthy)).map some
    else .ok none

/-- `_normalize_type` (client.py). -/
def normalizeType (o : RawOffer) : Option String :=
  let fallback :=
    if getVal o "interruptible" = .vBool true ∨ getVal o "preemptible" = .vBool true then
      some "interruptible"
    else if getVal o "interruptible" = .vBool false ∨ getVal o "preemptible" = .vBool false then
      some "on-demand"
    else none
  match getVal o "type" with
  | .vStr s => if s ≠ "" then some s else fallback
  | _ => fallback

/-- The verification-state block of `normalize` (client.py lines
257-278): explicit flags, then the `verification` string, then the
`is_vm_deverified` override, then `None → 0` defaults.  Fallible because
the two `_to_bool_int` calls raise on NaN/infinity floats. -/
def verifiedPair (offer : RawOffer) : Except Unit (Int × Int) :=
  let verified_val :=
    if getVal offer "verified" = .vNull then getVal offer "is_verified"
    else getVal offer "verified"
  match toBoolInt verified_val with
  | .error e => .error e
  | .ok verified =>
    match toBoolInt (getVal offer "deverified") with
    | .error e => .error e
    | .ok deverified =>
      let p :=
        match getVal offer "verification" with
        | .vStr vs =>
          let lowered := pyLower (pyStrip vs)
          if lowered = "verified" then ((some 1 : Option Int), (some 0 : Option Int))
          else if lowered = "deverified" then (some 0, some 1)
          else (verified, deverified)
        | _ => (verified, deverified)
      let p := if getVal offer "is_vm_deverified" = .vBool true then (p.1, some 1) else p
      .ok (p.1.getD 0, p.2.getD 0)

/-- The `availability_state` fallback derivation from the coerced
`rentable`/`rented` flags (client.py lines 283-290). -/
def availabilityFromFlags (rentable rented : Option Int) : String :=
  if rentable = some 1 ∧ rented = some 0 then "available"
  else if rented = some 1 then "rented"
  else if rentable = some 0 ∧ rented = some 0 then "unavailable"
  else "unknown"

/-- The canonical snapshot record produced by `normalize`. -/
structure Canonical where
  ts : String
  offer_id : Int
  machine_id : Int
  gpu_name : Val
  num_gpus : Int
  gpu_frac : Option PyF
  gpu_total_ram_gb : Option PyF
  dph_total_usd : Option PyF
  reliability2 : Option PyF
  geolocation : Option String
  type : Option String
  rentable : Option Int
  rented : Option Int
  verified : Int
  deverified : Int
  availability_state : String
deriving DecidableEq

/-- `normalize` (client.py), in `Except` so both uncaught exceptions
surface as `.error`: `_normalize_geo`'s join `TypeError` (raised first,
line 252) and `_to_bool_int`'s `int(x)` on NaN/infinity floats for the
`rentable`, `rented`, `verified`/`is_verified` and `deverified` fields
(lines 254-262), in the source's evaluation order. -/
def normalizeE (offer : RawOffer) (ts : String) (source_state : Option String) :
    Except Unit Canonical :=
  match normalizeGeo offer with
  | .error e => .error e
  | .ok geolocation =>
   match toBoolInt (getVal offer "rentable") with
   | .error e => .error e
   | .ok rentable =>
    match toBoolInt (getVal offer "rented") with
    | .error e => .error e
    | .ok rented =>
     match verifiedPair offer with
     | .error e => .error e
     | .ok vp =>
      let srcStr := pyLower (pyStrip (source_state.getD ""))
      let src : Option String := if srcStr = "" then none else some srcStr
      let availability_state :=
        match src with
        | some s =>
          if s = "available" ∨ s = "rented" ∨ s = "unavailable" then s
          else availabilityFromFlags rentable rented
        | none => availabilityFromFlags rentable rented
      .ok
      { ts := ts
        offer_id := toInt (pyOr (getVal offer "id") (getVal offer "offer_id"))
        machine_id :=
          toInt (pyOr (pyOr (getVal offer "machine_id") (getVal offer "machine"))
            (getVal offer "machineID"))
        gpu_name :=
          pyOr (pyOr (getVal offer "gpu_name") (getVal offer "gpu_name_short"))
            (getVal offer "gpu")
        num_gpus :=
          toInt (pyOr (pyOr (pyOr (getVal offer "num_gpus") (getVal offer "numgpus"))
            (getVal offer "gpus")) (.vInt 1))
        gpu_frac :=
          toFloat (pyOr (pyOr (getVal offer "gpu_frac") (getVal offer "gpu_fraction"))
            (.vFloat (.fin 1)))
        gpu_total_ram_gb := normalizeVramGb offer
        dph_total_usd :=
          toFloat (pyOr (pyOr (getVal offer "dph_total") (getVal offer "dollars_per_hour"))
            (getVal offer "usd_per_hour"))
        reliability2 := toFloat (pyOr (getVal offer "reliability2") (getVal offer "reliability"))
        geolocation := geolocation
        type := normalizeType offer
        rentable := rentable
        rented := rented
        verified := vp.1
        deverified := vp.2
        availability_state := availability_state }

/-! ## Fetcher / retry engine (`search_offers`, client.py) -/

/-- The payload of one HTTP response, at the granularity the retry loop
inspects: a 200 body either yields a discoverable list of offers or is a
structural error (non-JSON content type, malformed JSON, or no array
value). -/
inductive Body
  | offersList (offers : List Int)
  | structuralError
deriving DecidableEq

/-- One upstream outcome per attempt: a transport-level exception or an
HTTP response. -/
inductive Resp
  | netErr
  | http (status : Nat) (body : Body)

/-- Classified failures surfaced as `VastAPIError` by `search_offers`. -/
inductive FetchErr
  | network
  | structural
  | rateLimited (status : Nat)
  | apiError (status : Nat)
  | exhausted
deriving DecidableEq

/-- Result of `search_offers` together with the number of requests
actually issued. -/
inductive FetchResult
  | success (offers : List Int) (attempts : Nat)
  | failure (e : FetchErr) (attempts : Nat)
deriving DecidableEq

/-- The sole statuses the source treats as retryable:
`resp.status_code in (429, 500, 502, 503, 504)`. -/
def retryableStatus (c : Nat) : Bool :=
  c = 429 ∨ c = 500 ∨ c = 502 ∨ c = 503 ∨ c = 504

/-- `max_attempts = 5` in `search_offers`. -/
def maxAttempts : Nat := 5

/-- The `for attempt in range(max_attempts)` loop of `search_offers`.
`script` assigns each attempt its upstream outcome; backoff sleeps are
timing-only and not modelled. -/
def searchLoop (script : Nat → Resp) : Nat → Nat → FetchResult
  | 0, attempt => .failure .exhausted attempt
  | fuel + 1, attempt =>
    match script attempt with
    | .netErr =>
      if attempt < maxAttempts - 1 then searchLoop script fuel (attempt + 1)
      else .failure .network (attempt + 1)
    | .http 200 body =>
      match body with
      | .offersList l => .success l (attempt + 1)
      | .structuralError => .failure .structural (attempt + 1)
    | .http c _ =>
      if retryableStatus c then
        if attempt < maxAttempts - 1 then searchLoop script fuel (attempt + 1)
        else .failure (.rateLimited c) (attempt + 1)
      else .failure (.apiError c) (attempt + 1)

/-- `search_offers` (client.py) as a function of the upstream response
script. -/
def searchOffersModel (script : Nat → Resp) : FetchResult :=
  searchLoop script maxAttempts 0

/-! ## Occupancy aggregator (`_run_occupancy`, report.py)

Timestamps are integer epoch seconds (the stored `ts` strings have second
precision and a fixed lexicographic-chronological format, so SQL string
comparison and `datetime` arithmetic both coincide with `Int`
comparison/subtraction). -/

/-- One row of the occupancy `SELECT`:
`offer_id, machine_id, gpu_name, ts, rentable, rented, availability_state`. -/
structure Row where
  offer_id : Int
  machine_id : Int
  gpu_name : Option String
  ts : Int
  rentable : Option Int
  rented : Option Int
  availability_state : Option String
deriving DecidableEq

/-- The per-entity accumulator dict created by `stats.setdefault`.  All
`*_sec` accumulators hold exact integer seconds (the Python floats carry
exactly these integer values). -/
structure Entry where
  machine_id : Int
  gpu_name : Option String
  samples : Nat
  total_sec : Int
  available_sec : Int
  assumed_rented_sec : Int
  api_rented_sec : Int
  unknown_sec : Int
deriving DecidableEq

/-- Fresh accumulator for a newly seen `offer_id`. -/
def initEntry (machine_id : Int) (gpu_name : Option String) : Entry :=
  { machine_id := machine_id, gpu_name := gpu_name, samples := 0, total_sec := 0,
    available_sec := 0, assumed_rented_sec := 0, api_rented_sec := 0, unknown_sec := 0 }

/-- The raw interval end for a sample: the successor's timestamp when it
belongs to the same entity, else tail extrapolation by the poll
interval (report.py lines 489-492). -/
def rawNext (poll : Int) (r : Row) : Option Row → Int
  | some nr => if nr.offer_id = r.offer_id then nr.ts else r.ts + poll
  | none => r.ts + poll

/-- The boundary clipping of report.py lines 493-496: the interval end is
truncated at `until`, then a start lying before `since` (with the clipped
end past `since`) is truncated to `since`. -/
def clipInterval (sinceDt untilDt currentDt nextDt : Int) : Int × Int :=
  let n := if untilDt < nextDt then untilDt else nextDt
  let c := if currentDt < sinceDt ∧ sinceDt < n then sinceDt else currentDt
  (c, n)

/-- Classification of one positive clipped duration (report.py lines
500-512): the whole duration goes to `total`, to exactly one of
`available`/`assumed_rented`/`unknown` by the `rentable` flag, and
additionally to `api_rented` when `rented` is truthy. -/
def classifyAccrue (r : Row) (d : Int) (e : Entry) : Entry :=
  let e := { e with total_sec := e.total_sec + d }
  let e :=
    match r.rentable with
    | some v =>
      if v ≠ 0 then { e with available_sec := e.available_sec + d }
      else { e with assumed_rented_sec := e.assumed_rented_sec + d }
    | none => { e with unknown_sec := e.unknown_sec + d }
  match r.rented with
  | some v => if v ≠ 0 then { e with api_rented_sec := e.api_rented_sec + d } else e
  | none => e

/-- The whole per-row body of the accumulation loop: bump the sample
count, then accrue the clipped duration if positive (`continue`
otherwise). -/
def rowUpdate (sinceDt untilDt poll : Int) (r : Row) (next? : Option Row) (e : Entry) : Entry :=
  let p := clipInterval sinceDt untilDt r.ts (rawNext poll r next?)
  let delta := p.2 - p.1
  let e := { e with samples := e.samples + 1 }
  if delta ≤ 0 then e else classifyAccrue r delta e

/-- `stats.setdefault(offer_id, init)` followed by a mutation `f` of the
entry — association list preserving Python dict insertion order. -/
def withEntry : List (Int × Entry) → Int → Entry → (Entry → Entry) → List (Int × Entry)
  | [], k, init, f => [(k, f init)]
  | (k', e) :: rest, k, init, f =>
    if k' = k then (k', f e) :: rest else (k', e) :: withEntry rest k init f

/-- The `for idx, row in enumerate(rows)` loop, with the one-row
lookahead `rows[idx + 1]`. -/
def occLoop (sinceDt untilDt poll : Int) : List (Int × Entry) → List Row → List (Int × Entry)
  | stats, [] => stats
  | stats, r :: rest =>
    occLoop sinceDt untilDt poll
      (withEntry stats r.offer_id (initEntry r.machine_id r.gpu_name)
        (rowUpdate sinceDt untilDt poll r rest.head?))
      rest

/-- The completed per-entity statistics for a window's rows. -/
def occStats (sinceDt untilDt poll : Int) (rows : List Row) : List (Int × Entry) :=
  occLoop sinceDt untilDt poll [] rows

/-- Round-half-to-even division: the exact integer that Python's
`round(n / d, k)` denotes once pre-scaled by `10 ^ k` (used with `d > 0`;
the pipeline divides only after establishing `total_sec > 0`). -/
def rheDiv (n d : Int) : Int :=
  let q := n.ediv d
  let r := n.emod d
  if 2 * r < d then q
  else if d < 2 * r then q + 1
  else if q % 2 = 0 then q else q + 1

/-- One emitted summary row.  Hour columns are in thousandths of an hour
and percentage columns in hundredths of a percent — the exact scaled
values of the source's `round(x, 3)` / `round(x, 2)` floats. -/
structure OutRow where
  offer_id : Int
  machine_id : Int
  gpu_name : Option String
  samples : Nat
  total_hours : Int
  available_hours : Int
  assumed_rented_hours : Int
  api_rented_hours : Int
  unknown_hours : Int
  available_pct : Int
  assumed_rented_pct : Int
  api_rented_pct : Int
  unknown_pct : Int
deriving DecidableEq

/-- Emission of one kept entry (report.py lines 523-548): hours are
`sec / 3600` rounded to 3 digits, percentages are `100 * sec / total`
rounded to 2 digits, in the scaled-integer representation. -/
def emitRow (offer_id : Int) (e : Entry) : OutRow :=
  { offer_id := offer_id
    machine_id := e.machine_id
    gpu_name := e.gpu_name
    samples := e.samples
    total_hours := rheDiv (e.total_sec * 1000) 3600
    available_hours := rheDiv (e.available_sec * 1000) 3600
    assumed_rented_hours := rheDiv (e.assumed_rented_sec * 1000) 3600
    api_rented_hours := rheDiv (e.api_rented_sec * 1000) 3600
    unknown_hours := rheDiv (e.unknown_sec * 1000) 3600
    available_pct := rheDiv (e.available_sec * 10000) e.total_sec
    assumed_rented_pct := rheDiv (e.assumed_rented_sec * 10000) e.total_sec
    api_rented_pct := rheDiv (e.api_rented_sec * 10000) e.total_sec
    unknown_pct := rheDiv (e.unknown_sec * 10000) e.total_sec }

/-- The discard filter of report.py lines 516-522: entities with fewer
than `max(min_samples, 1)` samples, with less than `min_total_minutes`
of accrued duration, or with non-positive duration are dropped
(`min_total_seconds = max(min_total_minutes * 60.0, 0.0)`; the
minutes parameter is modelled at integer granularity). -/
def keptEntries (min_samples min_total_minutes : Int) (stats : List (Int × Entry)) :
    List (Int × Entry) :=
  let min_total_seconds := max (min_total_minutes * 60) 0
  stats.filter fun p =>
    ¬((p.2.samples : Int) < max min_samples 1) ∧
      ¬(p.2.total_sec < min_total_seconds) ∧ ¬(p.2.total_sec ≤ 0)

/-- The sort key of `rows_out.sort(key=lambda r: (r[10], r[6]),
reverse=True)`: tuple index 10 is `assumed_rented_pct`, tuple index 6 is
`assumed_rented_hours`. -/
def occKey (r : OutRow) : Int × Int :=
  (r.assumed_rented_pct, r.assumed_rented_hours)

/-- `a` may precede `b` in the descending sort: `occKey b` is
lexicographically at most `occKey a`. -/
def occLe (a b : OutRow) : Bool :=
  (occKey b).1 < (occKey a).1 ∨
    ((occKey b).1 = (occKey a).1 ∧ (occKey b).2 ≤ (occKey a).2)

/-- Insert into a sorted list, after any element it ties with — the
stable insertion matching Python's stable `list.sort`. -/
def insertBy {α : Type} (le : α → α → Bool) (a : α) : List α → List α
  | [] => [a]
  | b :: l => if le a b then a :: b :: l else b :: insertBy le a l

/-- Stable sort by the total preorder `le` — extensionally the result of
Python's stable `list.sort`. -/
def sortBy {α : Type} (le : α → α → Bool) : List α → List α
  | [] => []
  | a :: l => insertBy le a (sortBy le l)

/-- Python list slicing `l[:limit]` with an optional, possibly negative
limit. -/
def pyTake {α : Type} (limit : Option Int) (l : List α) : List α :=
  match limit with
  | none => l
  | some n => l.take (if 0 ≤ n then n.toNat else ((l.length : Int) + n).toNat)

/-- The pure core of `_run_occupancy` on the window's ordered rows:
accumulate, filter, emit, sort descending by
`(assumed_rented_pct, assumed_rented_hours)`, and apply the row limit. -/
def runOccupancyRows (sinceDt untilDt poll min_samples min_total_minutes : Int)
    (limit : Option Int) (rows : List Row) : List OutRow :=
  pyTake limit
    (sortBy occLe
      ((keptEntries min_samples min_total_minutes (occStats sinceDt untilDt poll rows)).map
        (fun p => emitRow p.1 p.2)))

/-- Outcome of `_run_occupancy`: either the `sys.exit(2)` usage error for
an inverted window, or a (possibly empty) table of summary rows. -/
inductive OccOutcome
  | usageError
  | rows (out : List OutRow)
deriving DecidableEq

/-- The effective poll interval (report.py lines 440-446): a positive
configured `VW_POLL_INTERVAL_SEC` else `VAST_MIN_POLL_INTERVAL_SEC * 6`,
then clamped below by the same floor. -/
def pollIntervalOf (cfg : Option Int) : Int :=
  let base :=
    match cfg with
    | some v => if 0 < v then v else 360
    | none => 360
  max base 360

/-- The effective `[since, until]` window (report.py lines 448-449):
defaults are the store's minimum timestamp and its maximum timestamp
plus one poll interval. -/
def effWindow (d : Row) (ds : List Row) (since until_ : Option Int) (poll : Int) : Int × Int :=
  (since.getD (ds.foldl (fun a r => min a r.ts) d.ts),
   until_.getD (ds.foldl (fun a r => max a r.ts) d.ts + poll))

/-- The `ORDER BY offer_id, ts` of the window query. -/
def sortRowsByOfferTs (rows : List Row) : List Row :=
  sortBy (fun a b => a.offer_id < b.offer_id ∨ (a.offer_id = b.offer_id ∧ a.ts ≤ b.ts)) rows

/-- `_run_occupancy` (report.py) end to end over the store's rows: empty
store short-circuits to an empty table, an inverted effective window is a
usage error, and the window's rows (inclusive bounds, ordered by
`(offer_id, ts)`) feed the aggregation core. -/
def runOccupancy (db : List Row) (since until_ : Option Int) (pollCfg : Option Int)
    (min_samples min_total_minutes : Int) (limit : Option Int) : OccOutcome :=
  match db with
  | [] => .rows []
  | d :: ds =>
    let poll := pollIntervalOf pollCfg
    let w := effWindow d ds since until_ poll
    if w.2 ≤ w.1 then .usageError
    else
      let rows := sortRowsByOfferTs ((d :: ds).filter fun r => w.1 ≤ r.ts ∧ r.ts ≤ w.2)
      if rows.isEmpty then .rows []
      else .rows (runOccupancyRows w.1 w.2 poll min_samples min_total_minutes limit rows)

/-! ## Statement-side definitions and concrete inputs -/

/-- "First usable candidate": the first candidate whose float conversion
succeeds (a `None` candidate never converts). -/
def firstUsable : List Val → Option PyF
  | [] => none
  | v :: rest =>
    match pyFloat v with
    | some f => some f
    | none => firstUsable rest

/-- The magnitude heuristics: > 1,000,000 is bytes, > 200 is MB,
otherwise already GB. -/
def vramConvert (f : PyF) : PyF :=
  if pyLt (.fin 1000000) f then pyDivPos f (1024 ^ 3)
  else if pyLt (.fin 200) f then pyDivPos f 1024 else f

/-- A value on which `_to_bool_int` cannot raise: anything but a
NaN/infinity float. -/
def boolIntSafe : Val → Bool
  | .vFloat .nan => false
  | .vFloat .inf => false
  | .vFloat .ninf => false
  | _ => true

/-- A value that the geolocation join cannot choke on: falsy, or an
actual string. -/
def strOrFalsy (v : Val) : Prop :=
  truthy v = false ∨ ∃ s, v = .vStr s

/-- Invariant of every per-entity accumulator: all buckets are
nonnegative, the three `rentable`-driven buckets partition `total_sec`
exactly, and the overlapping `api_rented_sec` never exceeds it. -/
def EntryInv (e : Entry) : Prop :=
  0 ≤ e.available_sec ∧ 0 ≤ e.assumed_rented_sec ∧ 0 ≤ e.unknown_sec ∧
    0 ≤ e.api_rented_sec ∧
    e.available_sec + e.assumed_rented_sec + e.unknown_sec = e.total_sec ∧
    e.api_rented_sec ≤ e.total_sec

/-- Concrete window rows: entity 1 has two always-unrentable samples
(one hour apart, tail-extrapolated by an hour), entity 2 one unrentable,
API-rented sample.  Both end at `assumed_rented_pct = 100%`, with
`assumed_rented_hours` 2.0 vs 1.0 and `api_rented_hours` 0.0 vs 1.0. -/
def cxRows : List Row :=
  [⟨1, 10, some "A", 0, some 0, some 0, some "unavailable"⟩,
   ⟨1, 10, some "A", 3600, some 0, some 0, some "unavailable"⟩,
   ⟨2, 20, some "B", 0, some 0, some 1, some "rented"⟩]

/-- The accumulator that `occStats 0 7200 3600 cxRows` builds for
entity 1. -/
def entryA : Entry :=
  { machine_id := 10, gpu_name := some "A", samples := 2, total_sec := 7200,
    available_sec := 0, assumed_rented_sec := 7200, api_rented_sec := 0, unknown_sec := 0 }

/-- A store with a single sample, for exercising the window checks. -/
def oneRow : Row := ⟨5, 1, some "G", 0, some 1, some 0, some "available"⟩

/-- An offer whose numeric fields are all present but unparseable. -/
def offerUnparseable : RawOffer :=
  [("gpu_frac", .vStr "z"), ("num_gpus", .vStr "z"), ("dph_total", .vStr "z")]

/-- The canonical record produced from `offerUnparseable`. -/
def recUnparseable : Canonical :=
  { ts := "t", offer_id := 0, machine_id := 0, gpu_name := .vNull, num_gpus := 0,
    gpu_frac := none, gpu_total_ram_gb := none, dph_total_usd := none, reliability2 := none,
    geolocation := none, type := none, rentable := none, rented := none, verified := 0,
    deverified := 0, availability_state := "unknown" }

/-- The canonical record produced from the empty raw offer, and equally
from `offerFalsy` (falsy values fall through the or-chains the same
way). -/
def recEmpty : Canonical :=
  { ts := "t", offer_id := 0, machine_id := 0, gpu_name := .vNull, num_gpus := 1,
    gpu_frac := some (.fin 1), gpu_total_ram_gb := none, dph_total_usd := none,
    reliability2 := none, geolocation := none, type := none, rentable := none, rented := none,
    verified := 0, deverified := 0, availability_state := "unknown" }

/-- An offer whose numeric fields are present but falsy (empty strings):
they are unparseable, yet the or-chains discard them in favour of the
defaults. -/
def offerFalsy : RawOffer :=
  [("gpu_frac", .vStr ""), ("num_gpus", .vStr "")]

/-- A raw offer whose `rentable` is a NaN float: `_to_bool_int` reaches
`int(nan)` and raises. -/
def offerNanRentable : RawOffer := [("rentable", .vFloat .nan)]

/-- The raw offer of the C7 precedence scenario. -/
def offerVerifStr : RawOffer :=
  [("verified", .vBool false), ("verification", .vStr "verified")]

/-- `offerVerifStr` with an additional `is_vm_deverified=True` flag. -/
def offerVerifStrVm : RawOffer :=
  [("verified", .vBool false), ("verification", .vStr "verified"),
   ("is_vm_deverified", .vBool true)]

/-- Response script: three 503s, then a 200 carrying one offer. -/
def script503x3 : Nat → Resp :=
  fun n => if n < 3 then .http 503 .structuralError else .http 200 (.offersList [7])

/-- A raw offer whose `city` is a truthy non-string. -/
def offerCity5 : RawOffer := [("city", .vInt 5)]

/-- The canonical record produced from `offerVerifStr`. -/
def recVerifStr : Canonical :=
  { ts := "t", offer_id := 0, machine_id := 0, gpu_name := .vNull, num_gpus := 1,
    gpu_frac := some (.fin 1), gpu_total_ram_gb := none, dph_total_usd := none,
    reliability2 := none, geolocation := none, type := none, rentable := none, rented := none,
    verified := 1, deverified := 0, availability_state := "unknown" }

/-- The summary row the pipeline emits for entity 1 of `cxRows`. -/
def outRowA : OutRow :=
  { offer_id := 1, machine_id := 10, gpu_name := some "A", samples := 2, total_hours := 2000,
    available_hours := 0, assumed_rented_hours := 2000, api_rented_hours := 0,
    unknown_hours := 0, available_pct := 0, assumed_rented_pct := 10000, api_rented_pct := 0,
    unknown_pct := 0 }

/-! ## Helper lemmas -/

theorem mem_insertBy {α : Type} (le : α → α → Bool) (a x : α) (l : List α) :
    x ∈ insertBy le a l ↔ x = a ∨ x ∈ l := by
  induction l with
  | nil => simp [insertBy]
  | cons b l ih =>
    by_cases h : le a b = true
    · simp [insertBy, h]
    · simp only [insertBy, h, if_neg, Bool.not_eq_true] at *
      simp [List.mem_cons, ih]
      tauto

theorem pairwise_insertBy {α : Type} {le : α → α → Bool}
    (htot : ∀ a b, le a b = true ∨ le b a = true)
    (htrans : ∀ a b c, le a b = true → le b c = true → le a c = true)
    (a : α) {l : List α} (h : l.Pairwise fun x y => le x y = true) :
    (insertBy le a l).Pairwise fun x y => le x y = true := by
  induction l with
  | nil => simp [insertBy]
  | cons b l ih =>
    rcases List.pairwise_cons.mp h with ⟨hb, hl⟩
    by_cases hab : le a b = true
    · have hins : insertBy le a (b :: l) = a :: b :: l := by simp [insertBy, hab]
      rw [hins]
      refine List.pairwise_cons.mpr ⟨?_, h⟩
      intro y hy
      rcases List.mem_cons.mp hy with rfl | hy
      · exact hab
      · exact htrans a b y hab (hb y hy)
    · have hba : le b a = true := (htot a b).resolve_left hab
      have hins : insertBy le a (b :: l) = b :: insertBy le a l := by simp [insertBy, hab]
      rw [hins]
      refine List.pairwise_cons.mpr ⟨?_, ih hl⟩
      intro y hy
      rcases (mem_insertBy le a y l).mp hy with rfl | hy
      · exact hba
      · exact hb y hy

theorem pairwise_sortBy {α : Type} {le : α → α → Bool}
    (htot : ∀ a b, le a b = true ∨ le b a = true)
    (htrans : ∀ a b c, le a b = true → le b c = true → le a c = true)
    (l : List α) : (sortBy le l).Pairwise fun x y => le x y = true := by
  induction l with
  | nil => exact List.Pairwise.nil
  | cons a l ih => exact pairwise_insertBy htot htrans a ih

theorem mem_sortBy {α : Type} (le : α → α → Bool) (x : α) (l : List α) :
    x ∈ sortBy le l ↔ x ∈ l := by
  induction l with
  | nil => simp [sortBy]
  | cons a l ih => simp [sortBy, mem_insertBy, ih]

theorem occLe_total (a b : OutRow) : occLe a b = true ∨ occLe b a = true := by
  simp only [occLe, occKey, decide_eq_true_eq]
  omega

theorem occLe_trans (a b c : OutRow) (h1 : occLe a b = true) (h2 : occLe b c = true) :
    occLe a c = true := by
  simp only [occLe, occKey, decide_eq_true_eq] at *
  omega

theorem rheDiv_nonneg {n d : Int} (hd : 0 < d) (hn : 0 ≤ n) : 0 ≤ rheDiv n d := by
  have hq : 0 ≤ n.ediv d := Int.ediv_nonneg hn hd.le
  simp only [rheDiv]
  split_ifs <;> omega

theorem rheDiv_le {n d k : Int} (hd : 0 < d) (h : n ≤ k * d) : rheDiv n d ≤ k := by
  have hqr : d * n.ediv d + n.emod d = n := Int.ediv_add_emod n d
  have hr0 : 0 ≤ n.emod d := Int.emod_nonneg n hd.ne.symm
  have hrd : n.emod d < d := Int.emod_lt_of_pos n hd
  have hqk : n.ediv d ≤ k := by nlinarith
  simp only [rheDiv]
  split_ifs with h1 h2 h3
  · exact hqk
  · nlinarith
  · exact hqk
  · nlinarith

theorem initEntry_inv (m : Int) (g : Option String) : EntryInv (initEntry m g) := by
  simp [EntryInv, initEntry]

theorem classifyAccrue_inv {d : Int} (r : Row) (hd : 0 < d) {e : Entry} (h : EntryInv e) :
    EntryInv (classifyAccrue r d e) := by
  obtain ⟨h1, h2, h3, h4, h5, h6⟩ := h
  unfold classifyAccrue EntryInv
  rcases r.rentable with _ | v <;> rcases r.rented with _ | w <;>
    simp only [] <;> (try split_ifs) <;> (try dsimp only []) <;> omega

theorem classifyAccrue_total (r : Row) (d : Int) (e : Entry) :
    (classifyAccrue r d e).total_sec = e.total_sec + d := by
  unfold classifyAccrue
  rcases r.rentable with _ | v <;> rcases r.rented with _ | w <;>
    simp only [] <;> (try split_ifs) <;> rfl

theorem rowUpdate_inv (s u poll : Int) (r : Row) (next? : Option Row) {e : Entry}
    (h : EntryInv e) : EntryInv (rowUpdate s u poll r next? e) := by
  unfold rowUpdate
  set delta := (clipInterval s u r.ts (rawNext poll r next?)).2 -
    (clipInterval s u r.ts (rawNext poll r next?)).1 with hdl
  by_cases hd : delta ≤ 0
  · simpa [hd, EntryInv] using h
  · have hd' : 0 < delta := lt_of_not_le hd
    simp only [hd, if_false]
    exact classifyAccrue_inv r hd' (by simpa [EntryInv] using h)

theorem withEntry_forall {P : Entry → Prop} {stats : List (Int × Entry)} {k : Int}
    {init : Entry} {f : Entry → Entry} (hstats : ∀ p ∈ stats, P p.2)
    (hf : ∀ e, P e → P (f e)) (hinit : P (f init)) :
    ∀ p ∈ withEntry stats k init f, P p.2 := by
  induction stats with
  | nil => simpa [withEntry] using hinit
  | cons q rest ih =>
    obtain ⟨k', e⟩ := q
    by_cases hk : k' = k
    · intro p hp
      rcases List.mem_cons.mp (by simpa [withEntry, hk] using hp) with rfl | hp'
      · exact hf e (hstats (k', e) (List.mem_cons_self _ _))
      · exact hstats p (List.mem_cons_of_mem _ hp')
    · intro p hp
      rcases List.mem_cons.mp (by simpa [withEntry, hk] using hp) with rfl | hp'
      · exact hstats (k', e) (List.mem_cons_self _ _)
      · exact ih (fun q hq => hstats q (List.mem_cons_of_mem _ hq)) p hp'

theorem occLoop_inv (s u poll : Int) (rows : List Row) (stats : List (Int × Entry))
    (hstats : ∀ p ∈ stats, EntryInv p.2) :
    ∀ p ∈ occLoop s u poll stats rows, EntryInv p.2 := by
  induction rows generalizing stats with
  | nil => simpa [occLoop] using hstats
  | cons r rest ih =>
    exact ih _ (withEntry_forall hstats
      (fun e he => rowUpdate_inv s u poll r rest.head? he)
      (rowUpdate_inv s u poll r rest.head? (initEntry_inv _ _)))

theorem occStats_inv (s u poll : Int) (rows : List Row) :
    ∀ p ∈ occStats s u poll rows, EntryInv p.2 :=
  occLoop_inv s u poll rows [] (by simp)

theorem toFloat_eq_pyFloat (v : Val) : toFloat v = pyFloat v := by
  cases v <;> rfl

theorem pyTake_sublist {α : Type} (limit : Option Int) (l : List α) :
    (pyTake limit l).Sublist l := by
  cases limit with
  | none => exact List.Sublist.refl l
  | some n => exact List.take_sublist _ _

theorem mem_of_mem_pyTake {α : Type} {limit : Option Int} {l : List α} {x : α}
    (h : x ∈ pyTake limit l) : x ∈ l :=
  (pyTake_sublist limit l).mem h

theorem pct_bounds {x : Int} (h0 : 0 ≤ x) (h1 : x ≤ 10000) :
    0 ≤ (x : ℚ) / 100 ∧ (x : ℚ) / 100 ≤ 100 := by
  constructor
  · exact div_nonneg (by exact_mod_cast h0) (by norm_num)
  · rw [div_le_iff₀ (by norm_num : (0 : ℚ) < 100)]
    have : (x : ℚ) ≤ 10000 := by exact_mod_cast h1
    linarith

theorem toBoolInt_ok {v : Val} (h : boolIntSafe v = true) : ∃ x, toBoolInt v = .ok x := by
  cases v with
  | vFloat f =>
    cases f with
    | fin q => exact ⟨_, rfl⟩
    | nan => simp [boolIntSafe] at h
    | inf => simp [boolIntSafe] at h
    | ninf => simp [boolIntSafe] at h
  | vStr s =>
    simp only [toBoolInt]
    split_ifs <;> exact ⟨_, rfl⟩
  | vNull => exact ⟨_, rfl⟩
  | vBool b => exact ⟨_, rfl⟩
  | vInt n => exact ⟨_, rfl⟩

theorem verifiedPair_ok {o : RawOffer}
    (h1 : boolIntSafe (getVal o "verified") = true)
    (h2 : boolIntSafe (getVal o "is_verified") = true)
    (h3 : boolIntSafe (getVal o "deverified") = true) :
    ∃ vp, verifiedPair o = .ok vp := by
  have hvv : boolIntSafe (if getVal o "verified" = Val.vNull then getVal o "is_verified"
      else getVal o "verified") = true := by
    split_ifs <;> assumption
  obtain ⟨x1, hx1⟩ := toBoolInt_ok hvv
  obtain ⟨x2, hx2⟩ := toBoolInt_ok h3
  cases hp : verifiedPair o with
  | ok vp => exact ⟨vp, rfl⟩
  | error e =>
    simp only [verifiedPair, hx1, hx2] at hp
    exact absurd hp (fun hh => Except.noConfusion hh)

theorem normalizeE_fields {o : RawOffer} {ts : String} {src : Option String} {r : Canonical}
    (hok : normalizeE o ts src = .ok r) :
    r.gpu_frac = toFloat (pyOr (pyOr (getVal o "gpu_frac") (getVal o "gpu_fraction"))
      (.vFloat (.fin 1))) ∧
    r.num_gpus = toInt (pyOr (pyOr (pyOr (getVal o "num_gpus") (getVal o "numgpus"))
      (getVal o "gpus")) (.vInt 1)) ∧
    r.dph_total_usd = toFloat (pyOr (pyOr (getVal o "dph_total") (getVal o "dollars_per_hour"))
      (getVal o "usd_per_hour")) ∧
    verifiedPair o = .ok (r.verified, r.deverified) := by
  cases hg : normalizeGeo o with
  | error e => simp [normalizeE, hg] at hok
  | ok g =>
    cases h1 : toBoolInt (getVal o "rentable") with
    | error e => simp [normalizeE, hg, h1] at hok
    | ok rentable =>
      cases h2 : toBoolInt (getVal o "rented") with
      | error e => simp [normalizeE, hg, h1, h2] at hok
      | ok rented =>
        cases h3 : verifiedPair o with
        | error e => simp [normalizeE, hg, h1, h2, h3] at hok
        | ok vp =>
          simp only [normalizeE, hg, h1, h2, h3, Except.ok.injEq] at hok
          subst hok
          exact ⟨rfl, rfl, rfl, rfl⟩

/-! ## Claims -/

/-- C5: the fetcher's retry classification.  The claim (and the
function's own docstring) say every HTTP 5xx response is retryable, but
the source retries only `(429, 500, 502, 503, 504)`: a 501 response is
fatal on the first attempt.  The 503,503,503,200 scenario does give
exactly 4 attempts and a clean success, the cap is 5 attempts, and 429
is retryable. -/
theorem claim_C5_behavior :
    searchOffersModel (fun _ => .http 501 .structuralError) = .failure (.apiError 501) 1 ∧
    searchOffersModel script503x3 = .success [7] 4 ∧
    searchOffersModel (fun _ => .http 503 .structuralError) = .failure (.rateLimited 503) 5 ∧
    searchOffersModel (fun n => if n = 0 then .http 429 .structuralError
      else .http 200 (.offersList [])) = .success [] 2 := by
  refine ⟨by decide, by decide, by decide, by decide⟩

/-- C8: VRAM normalization converts the first usable candidate with the
magnitude heuristics (> 1,000,000 bytes, > 200 MB, else GB); on the
spec's three probe inputs it yields 24.0 GB each time. -/
theorem claim_C8 :
    (∀ vs, vramScan vs = (firstUsable vs).map vramConvert) ∧
    normalizeVramGb [("gpu_total_ram_gb", .vInt 24)] = some (.fin 24) ∧
    normalizeVramGb [("gpu_total_ram_gb", .vInt 24576)] = some (.fin 24) ∧
    normalizeVramGb [("gpu_total_ram_gb", .vInt 25769803776)] = some (.fin 24) := by
  refine ⟨?_, ?_, ?_, ?_⟩
  · intro vs
    induction vs with
    | nil => rfl
    | cons v rest ih =>
      by_cases hv : v = Val.vNull
      · subst hv
        simpa [vramScan, firstUsable, pyFloat] using ih
      · cases hf : pyFloat v with
        | none => simpa [vramScan, firstUsable, hv, hf] using ih
        | some f =>
          have h1 : vramScan (v :: rest) =
              if pyLt (.fin 1000000) f then some (pyDivPos f (1024 ^ 3))
              else if pyLt (.fin 200) f then some (pyDivPos f 1024) else some f := by
            simp [vramScan, hv, hf]
          have h2 : firstUsable (v :: rest) = some f := by simp [firstUsable, hf]
          have h3 : Option.map vramConvert (some f) = some (vramConvert f) := rfl
          rw [h1, h2, h3]
          unfold vramConvert
          split_ifs <;> rfl
  · simp [normalizeVramGb, vramScan, getVal, List.find?, pyFloat, pyLt, pyDivPos]
    norm_num
  · simp [normalizeVramGb, vramScan, getVal, List.find?, pyFloat, pyLt, pyDivPos]
    norm_num
  · simp [normalizeVramGb, vramScan, getVal, List.find?, pyFloat, pyLt, pyDivPos]
    norm_num

/-- C2: the aggregator's boundary clipping.  The interval end (successor
timestamp or tail extrapolation alike) is truncated at `until`; an
interval starting before `since` and (after the `until` cut) ending past
`since` has its start truncated to `since`, so it contributes exactly the
portion after `since`; and each sample's accrued duration is exactly the
clipped interval's positive part. -/
theorem claim_C2 (s u c n : Int) :
    (clipInterval s u c n).2 = min n u ∧
    (c < s → s < min n u →
      (clipInterval s u c n).1 = s ∧
      (clipInterval s u c n).2 - (clipInterval s u c n).1 = min n u - s) ∧
    (∀ (poll : Int) (r : Row) (next? : Option Row) (e : Entry),
      (rowUpdate s u poll r next? e).total_sec =
        e.total_sec +
          max ((clipInterval s u r.ts (rawNext poll r next?)).2 -
            (clipInterval s u r.ts (rawNext poll r next?)).1) 0) := by
  refine ⟨?_, ?_, ?_⟩
  · simp only [clipInterval]
    split_ifs <;> omega
  · intro h1 h2
    constructor <;> (simp only [clipInterval] at *; split_ifs at * <;> omega)
  · intro poll r next? e
    simp only [rowUpdate]
    by_cases hd : (clipInterval s u r.ts (rawNext poll r next?)).2 -
        (clipInterval s u r.ts (rawNext poll r next?)).1 ≤ 0
    · simp only [hd, if_true]
      omega
    · simp only [hd, if_false]
      rw [classifyAccrue_total]
      (try dsimp only [])
      omega

/-- C2 witness: a sample at 5 with raw interval end 15, window
`[10, 20]`: the start is truncated to 10 and the contribution is
`min 15 20 - 10 = 5`. -/
theorem claim_C2_witness :
    (clipInterval 10 20 5 15).1 = 10 ∧
    (clipInterval 10 20 5 15).2 - (clipInterval 10 20 5 15).1 = min 15 20 - 10 :=
  (claim_C2 10 20 5 15).2.1 (by decide) (by decide)

/-- C6: for every accumulator the aggregator builds (in particular for
entities sampled strictly inside the window with no gaps), the three
`rentable`-driven buckets partition the total exactly, so the
corresponding (unrounded) percentage shares sum to 100. -/
theorem claim_C6 (sinceDt untilDt poll : Int) (rows : List Row) (k : Int) (e : Entry)
    (hmem : (k, e) ∈ occStats sinceDt untilDt poll rows) (ht : e.total_sec ≠ 0) :
    e.available_sec + e.assumed_rented_sec + e.unknown_sec = e.total_sec ∧
    100 * (e.available_sec : ℚ) / (e.total_sec : ℚ) +
        100 * (e.assumed_rented_sec : ℚ) / (e.total_sec : ℚ) +
        100 * (e.unknown_sec : ℚ) / (e.total_sec : ℚ) = 100 := by
  obtain ⟨h1, h2, h3, h4, h5, h6⟩ := occStats_inv sinceDt untilDt poll rows (k, e) hmem
  refine ⟨h5, ?_⟩
  have htQ : (e.total_sec : ℚ) ≠ 0 := Int.cast_ne_zero.mpr ht
  have h5Q : (e.available_sec : ℚ) + (e.assumed_rented_sec : ℚ) + (e.unknown_sec : ℚ) =
      (e.total_sec : ℚ) := by exact_mod_cast h5
  field_simp
  linarith

/-- C6 witness: the accumulator of entity 1 of `cxRows`. -/
theorem claim_C6_witness :
    entryA.available_sec + entryA.assumed_rented_sec + entryA.unknown_sec = entryA.total_sec ∧
    100 * (entryA.available_sec : ℚ) / (entryA.total_sec : ℚ) +
        100 * (entryA.assumed_rented_sec : ℚ) / (entryA.total_sec : ℚ) +
        100 * (entryA.unknown_sec : ℚ) / (entryA.total_sec : ℚ) = 100 :=
  claim_C6 0 7200 3600 cxRows 1 entryA (by decide) (by decide)

/-- C10: every entity surviving the discard filter has strictly positive
total accrued duration and `api_rented_sec ≤ total_sec`, and every
emitted row's four percentage columns (the scaled integers divided by
100, i.e. the printed percentages) lie in `[0, 100]`. -/
theorem claim_C10 (sinceDt untilDt poll min_samples min_total_minutes : Int)
    (limit : Option Int) (rows : List Row) :
    (∀ k e, (k, e) ∈ keptEntries min_samples min_total_minutes
        (occStats sinceDt untilDt poll rows) →
      0 < e.total_sec ∧ e.api_rented_sec ≤ e.total_sec) ∧
    (∀ r ∈ runOccupancyRows sinceDt untilDt poll min_samples min_total_minutes limit rows,
      (0 ≤ (r.available_pct : ℚ) / 100 ∧ (r.available_pct : ℚ) / 100 ≤ 100) ∧
      (0 ≤ (r.assumed_rented_pct : ℚ) / 100 ∧ (r.assumed_rented_pct : ℚ) / 100 ≤ 100) ∧
      (0 ≤ (r.api_rented_pct : ℚ) / 100 ∧ (r.api_rented_pct : ℚ) / 100 ≤ 100) ∧
      (0 ≤ (r.unknown_pct : ℚ) / 100 ∧ (r.unknown_pct : ℚ) / 100 ≤ 100)) := by
  have hkept : ∀ k e, (k, e) ∈ keptEntries min_samples min_total_minutes
      (occStats sinceDt untilDt poll rows) →
      ((k, e) ∈ occStats sinceDt untilDt poll rows ∧ 0 < e.total_sec) := by
    intro k e hke
    have := List.mem_filter.mp hke
    refine ⟨this.1, ?_⟩
    have hcond := this.2
    simp only [decide_eq_true_eq, Decidable.not_not] at hcond
    omega
  constructor
  · intro k e hke
    obtain ⟨hmem, hpos⟩ := hkept k e hke
    obtain ⟨h1, h2, h3, h4, h5, h6⟩ := occStats_inv sinceDt untilDt poll rows (k, e) hmem
    exact ⟨hpos, h6⟩
  · intro r hr
    have hr1 : r ∈ sortBy occLe
        ((keptEntries min_samples min_total_minutes
          (occStats sinceDt untilDt poll rows)).map (fun p => emitRow p.1 p.2)) :=
      mem_of_mem_pyTake hr
    have hr2 := (mem_sortBy _ _ _).mp hr1
    obtain ⟨p, hp, hre⟩ := List.mem_map.mp hr2
    obtain ⟨hmem, hpos⟩ := hkept p.1 p.2 hp
    obtain ⟨h1, h2, h3, h4, h5, h6⟩ := occStats_inv sinceDt untilDt poll rows p hmem
    have bound : ∀ a : Int, 0 ≤ a → a ≤ p.2.total_sec →
        0 ≤ rheDiv (a * 10000) p.2.total_sec ∧ rheDiv (a * 10000) p.2.total_sec ≤ 10000 := by
      intro a ha hat
      refine ⟨rheDiv_nonneg hpos (by positivity), rheDiv_le hpos ?_⟩
      nlinarith
    subst hre
    refine ⟨?_, ?_, ?_, ?_⟩ <;> unfold emitRow <;> (try dsimp only [])
    · obtain ⟨b1, b2⟩ := bound p.2.available_sec h1 (by omega)
      exact pct_bounds b1 b2
    · obtain ⟨b1, b2⟩ := bound p.2.assumed_rented_sec h2 (by omega)
      exact pct_bounds b1 b2
    · obtain ⟨b1, b2⟩ := bound p.2.api_rented_sec h4 h6
      exact pct_bounds b1 b2
    · obtain ⟨b1, b2⟩ := bound p.2.unknown_sec h3 (by omega)
      exact pct_bounds b1 b2

/-- C10 witness: the kept entity 1 of `cxRows` and its emitted row. -/
theorem claim_C10_witness :
    (0 < entryA.total_sec ∧ entryA.api_rented_sec ≤ entryA.total_sec) ∧
    (0 ≤ (outRowA.assumed_rented_pct : ℚ) / 100 ∧
      (outRowA.assumed_rented_pct : ℚ) / 100 ≤ 100) :=
  ⟨(claim_C10 0 7200 3600 1 0 none cxRows).1 1 entryA (by decide),
   ((claim_C10 0 7200 3600 1 0 none cxRows).2 outRowA (by decide)).2.1⟩

/-- C1 (amended): the emitted rows are ordered by descending
`(assumed_rented_pct, assumed_rented_hours)` — the source's
`(r[10], r[6])` key — not by `api_rented_hours`; the optional limit is a
plain prefix truncation of the sorted rows, so with a nonnegative limit
`n` at most `n` rows are returned. -/
theorem claim_C1 (sinceDt untilDt poll min_samples min_total_minutes : Int)
    (limit : Option Int) (rows : List Row) :
    (runOccupancyRows sinceDt untilDt poll min_samples min_total_minutes limit rows).Pairwise
      (fun a b => occLe a b = true) ∧
    runOccupancyRows sinceDt untilDt poll min_samples min_total_minutes limit rows =
      pyTake limit (runOccupancyRows sinceDt untilDt poll min_samples min_total_minutes
        none rows) ∧
    (∀ n : Int, limit = some n → 0 ≤ n →
      ((runOccupancyRows sinceDt untilDt poll min_samples min_total_minutes
        limit rows).length : Int) ≤ n) := by
  refine ⟨?_, rfl, ?_⟩
  · exact List.Pairwise.sublist (pyTake_sublist limit _)
      (pairwise_sortBy occLe_total occLe_trans _)
  · intro n hn h0
    subst hn
    simp only [runOccupancyRows, pyTake, List.length_take, if_pos h0]
    omega

/-- C1 counterexample: in `cxRows` both entities end at
`assumed_rented_pct = 100%`; the code emits entity 1 (2.0 assumed hours,
0.0 api hours) before entity 2 (1.0 assumed hours, 1.0 api hours), i.e.
`api_rented_hours` ascending — the claimed
`(assumed_rented_pct desc, api_rented_hours desc)` order would emit
entity 2 first. -/
theorem claim_C1_counterexample :
    (runOccupancyRows 0 7200 3600 1 0 none cxRows).map
      (fun r => (r.offer_id, r.assumed_rented_pct, r.api_rented_hours)) =
      [(1, 10000, 0), (2, 10000, 1000)] ∧
    (runOccupancyRows 0 7200 3600 1 0 none cxRows).map
      (fun r => (r.offer_id, r.assumed_rented_pct, r.api_rented_hours)) ≠
      [(2, 10000, 1000), (1, 10000, 0)] := by
  refine ⟨by decide, by decide⟩

/-- C1 witness: with `limit = 1` at most one row comes back. -/
theorem claim_C1_witness :
    ((runOccupancyRows 0 7200 3600 1 0 (some 1) cxRows).length : Int) ≤ 1 :=
  (claim_C1 0 7200 3600 1 0 (some 1) cxRows).2.2 1 rfl (by decide)

/-- C9 (amended): an empty store short-circuits to an empty result
before the window check; with a nonempty store an inverted effective
window (`until ≤ since`) is reported as a usage error instead of being
computed; and a valid window containing no samples yields an empty
result set, not an error. -/
theorem claim_C9 (db : List Row) (since until_ pollCfg : Option Int)
    (min_samples min_total_minutes : Int) (limit : Option Int) :
    (db = [] →
      runOccupancy db since until_ pollCfg min_samples min_total_minutes limit = .rows []) ∧
    (∀ d ds, db = d :: ds →
      (effWindow d ds since until_ (pollIntervalOf pollCfg)).2 ≤
        (effWindow d ds since until_ (pollIntervalOf pollCfg)).1 →
      runOccupancy db since until_ pollCfg min_samples min_total_minutes limit =
        .usageError) ∧
    (∀ d ds, db = d :: ds →
      (effWindow d ds since until_ (pollIntervalOf pollCfg)).1 <
        (effWindow d ds since until_ (pollIntervalOf pollCfg)).2 →
      db.filter (fun r => (effWindow d ds since until_ (pollIntervalOf pollCfg)).1 ≤ r.ts ∧
        r.ts ≤ (effWindow d ds since until_ (pollIntervalOf pollCfg)).2) = [] →
      runOccupancy db since until_ pollCfg min_samples min_total_minutes limit = .rows []) := by
  refine ⟨?_, ?_, ?_⟩
  · rintro rfl
    rfl
  · rintro d ds rfl hle
    simp only [runOccupancy]
    rw [if_pos hle]
  · rintro d ds rfl hlt hfil
    simp only [runOccupancy]
    rw [if_neg (not_le.mpr hlt), hfil]
    rfl

/-- C9 counterexample: an empty store with an explicitly inverted window
(`since = 10 > until = 5`) returns an empty result set, not the claimed
configuration error. -/
theorem claim_C9_counterexample :
    runOccupancy [] (some 10) (some 5) none 2 0 none = .rows [] ∧
    runOccupancy [] (some 10) (some 5) none 2 0 none ≠ .usageError := by
  refine ⟨by decide, by decide⟩

/-- C9 witness: with one stored sample, the inverted window 10..5 is a
usage error and the empty window 10000..20000 gives an empty table. -/
theorem claim_C9_witness :
    runOccupancy [oneRow] (some 10) (some 5) none 2 0 none = .usageError ∧
    runOccupancy [oneRow] (some 10000) (some 20000) none 2 0 none = .rows [] :=
  ⟨(claim_C9 [oneRow] (some 10) (some 5) none 2 0 none).2.1 oneRow [] rfl (by decide),
   (claim_C9 [oneRow] (some 10000) (some 20000) none 2 0 none).2.2 oneRow [] rfl
     (by decide) (by decide)⟩

/-- C3 (amended): `normalize` returns a canonical record and never
raises, provided that (a) the `city` value and the
`country_code`-or-`country` fallback value are strings whenever truthy,
and (b) none of the `rentable`, `rented`, `verified`, `is_verified` and
`deverified` values is a NaN/infinity float.  These guard the
normalizer's two uncaught failure paths: the `", ".join` in
`_normalize_geo` and `int(x)` in `_to_bool_int`. -/
theorem claim_C3 (o : RawOffer) (ts : String) (src : Option String)
    (h1 : strOrFalsy (getVal o "city"))
    (h2 : strOrFalsy (pyOr (getVal o "country_code") (getVal o "country")))
    (hb : ∀ k ∈ ["rentable", "rented", "verified", "is_verified", "deverified"],
      boolIntSafe (getVal o k) = true) :
    (normalizeE o ts src).isOk = true := by
  obtain ⟨g, hg⟩ : ∃ g, normalizeGeo o = .ok g := by
    unfold normalizeGeo
    by_cases hgeo : truthy (pyOr (pyOr (getVal o "geolocation") (getVal o "country"))
        (getVal o "region")) = true
    · exact ⟨_, by rw [if_pos hgeo]⟩
    · rw [if_neg hgeo]
      by_cases hcc : (truthy (getVal o "city") ||
          truthy (pyOr (getVal o "country_code") (getVal o "country"))) = true
      · rw [if_pos hcc]
        suffices hj : ∃ str, joinComma ([getVal o "city",
            pyOr (getVal o "country_code") (getVal o "country")].filter truthy) = .ok str by
          obtain ⟨str, hj⟩ := hj
          exact ⟨some str, by rw [hj]; rfl⟩
        rcases h1 with hf1 | ⟨s1, hs1⟩ <;> rcases h2 with hf2 | ⟨s2, hs2⟩
        · rw [Bool.or_eq_true] at hcc
          rcases hcc with hcc | hcc
          · exact absurd hcc (by rw [hf1]; exact Bool.false_ne_true)
          · exact absurd hcc (by rw [hf2]; exact Bool.false_ne_true)
        · rw [hs2]
          by_cases t2 : truthy (Val.vStr s2) = true <;>
            simp only [List.filter, hf1, t2, joinComma] <;> exact ⟨_, rfl⟩
        · rw [hs1]
          by_cases t1 : truthy (Val.vStr s1) = true <;>
            simp only [List.filter, hf2, t1, joinComma] <;> exact ⟨_, rfl⟩
        · rw [hs1, hs2]
          by_cases t1 : truthy (Val.vStr s1) = true <;>
            by_cases t2 : truthy (Val.vStr s2) = true <;>
            simp only [List.filter, t1, t2, joinComma] <;> exact ⟨_, rfl⟩
      · rw [if_neg hcc]
        exact ⟨none, rfl⟩
  obtain ⟨x1, hx1⟩ := toBoolInt_ok (hb "rentable" (by simp))
  obtain ⟨x2, hx2⟩ := toBoolInt_ok (hb "rented" (by simp))
  obtain ⟨vp, hvp⟩ := verifiedPair_ok (hb "verified" (by simp)) (hb "is_verified" (by simp))
    (hb "deverified" (by simp))
  simp only [normalizeE, hg, hx1, hx2, hvp]
  rfl

/-- C3 counterexample: a raw record whose `city` is the truthy integer
`5` makes `normalize` raise (`", ".join` over a non-string), and one
whose `rentable` is a NaN float makes it raise in `_to_bool_int`
(`int(nan)`), refuting "never raises" over arbitrary heterogeneous
mappings. -/
theorem claim_C3_counterexample :
    normalizeE offerCity5 "t" none = .error () ∧
    (normalizeE offerCity5 "t" none).isOk = false ∧
    normalizeE offerNanRentable "t" none = .error () ∧
    (normalizeE offerNanRentable "t" none).isOk = false := by
  refine ⟨by decide, by decide, by decide, by decide⟩

/-- C3 witness: the empty raw offer normalizes successfully. -/
theorem claim_C3_witness : (normalizeE [] "t" none).isOk = true :=
  claim_C3 [] "t" none (Or.inl (by decide)) (Or.inl (by decide)) (by decide)

/-- C4 (amended): a numeric field whose value is present and truthy but
fails to parse becomes `null` for float fields and `0` for the count
field; a missing or falsy value (e.g. an empty string — present but
unparseable) falls through the or-chain to the coded default — `1.0`
for `gpu_frac` and `1` for `num_gpus`, while `dph_total_usd` (no
default) is `null` when all its source fields are missing. -/
theorem claim_C4 (o : RawOffer) (ts : String) (src : Option String) (r : Canonical)
    (hok : normalizeE o ts src = .ok r) :
    (truthy (getVal o "gpu_frac") = true → pyFloat (getVal o "gpu_frac") = none →
      r.gpu_frac = none) ∧
    (truthy (getVal o "num_gpus") = true → pyInt (getVal o "num_gpus") = none →
      r.num_gpus = 0) ∧
    (truthy (getVal o "dph_total") = true → pyFloat (getVal o "dph_total") = none →
      r.dph_total_usd = none) ∧
    (truthy (getVal o "gpu_frac") = false → truthy (getVal o "gpu_fraction") = false →
      r.gpu_frac = some (.fin 1)) ∧
    (truthy (getVal o "num_gpus") = false → truthy (getVal o "numgpus") = false →
      truthy (getVal o "gpus") = false → r.num_gpus = 1) ∧
    (getVal o "dph_total" = .vNull → getVal o "dollars_per_hour" = .vNull →
      getVal o "usd_per_hour" = .vNull → r.dph_total_usd = none) := by
  obtain ⟨hgf, hng, hdph, _⟩ := normalizeE_fields hok
  refine ⟨?_, ?_, ?_, ?_, ?_, ?_⟩
  · intro htr hpf
    rw [hgf]
    rw [show pyOr (pyOr (getVal o "gpu_frac") (getVal o "gpu_fraction")) (.vFloat (.fin 1)) =
      getVal o "gpu_frac" by simp [pyOr, htr]]
    rw [toFloat_eq_pyFloat]
    exact hpf
  · intro htr hpi
    rw [hng]
    rw [show pyOr (pyOr (pyOr (getVal o "num_gpus") (getVal o "numgpus")) (getVal o "gpus"))
      (.vInt 1) = getVal o "num_gpus" by simp [pyOr, htr]]
    simp [toInt, hpi]
  · intro htr hpf
    rw [hdph]
    rw [show pyOr (pyOr (getVal o "dph_total") (getVal o "dollars_per_hour"))
      (getVal o "usd_per_hour") = getVal o "dph_total" by simp [pyOr, htr]]
    rw [toFloat_eq_pyFloat]
    exact hpf
  · intro hf1 hf2
    rw [hgf]
    rw [show pyOr (pyOr (getVal o "gpu_frac") (getVal o "gpu_fraction")) (.vFloat (.fin 1)) =
      .vFloat (.fin 1) by simp [pyOr, hf1, hf2]]
    rfl
  · intro hf1 hf2 hf3
    rw [hng]
    rw [show pyOr (pyOr (pyOr (getVal o "num_gpus") (getVal o "numgpus")) (getVal o "gpus"))
      (.vInt 1) = .vInt 1 by simp [pyOr, hf1, hf2, hf3]]
    rfl
  · intro hm1 hm2 hm3
    rw [hdph, hm1, hm2, hm3]
    rfl

/-- C4 counterexample: with every numeric field missing, the canonical
record carries `gpu_frac = 1.0` and `num_gpus = 1`; and with both fields
present but empty strings — unparseable, yet falsy — the result is the
same defaults, not the claimed `null` and `0`. -/
theorem claim_C4_counterexample :
    (normalizeE [] "t" none).map (fun r => (r.gpu_frac, r.num_gpus)) =
      .ok (some (.fin 1), 1) ∧
    (normalizeE [] "t" none).map (fun r => (r.gpu_frac, r.num_gpus)) ≠ .ok (none, 0) ∧
    getVal offerFalsy "gpu_frac" ≠ .vNull ∧
    pyFloat (getVal offerFalsy "gpu_frac") = none ∧
    pyInt (getVal offerFalsy "num_gpus") = none ∧
    (normalizeE offerFalsy "t" none).map (fun r => (r.gpu_frac, r.num_gpus)) =
      .ok (some (.fin 1), 1) := by
  refine ⟨by decide, by decide, by decide, by decide, by decide, by decide⟩

/-- C4 witness: truthy unparseable numeric fields yield `null`/`0`;
falsy or missing ones yield the defaults. -/
theorem claim_C4_witness :
    recUnparseable.gpu_frac = none ∧ recUnparseable.num_gpus = 0 ∧
    recUnparseable.dph_total_usd = none ∧ recEmpty.gpu_frac = some (.fin 1) ∧
    recEmpty.num_gpus = 1 ∧ recEmpty.dph_total_usd = none := by
  have hA := claim_C4 offerUnparseable "t" none recUnparseable (by decide)
  have hB := claim_C4 [] "t" none recEmpty (by decide)
  have hC := claim_C4 offerFalsy "t" none recEmpty (by decide)
  exact ⟨hA.1 (by decide) (by decide), hA.2.1 (by decide) (by decide),
    hA.2.2.1 (by decide) (by decide), hC.2.2.2.1 (by decide) (by decide),
    hC.2.2.2.2.1 (by decide) (by decide) (by decide),
    hB.2.2.2.2.2 (by decide) (by decide) (by decide)⟩

/-- C7 (amended): on a record carrying both `verified=false` and
`verification="verified"` the string wins (`verified=1, deverified=0`) —
provided no `is_vm_deverified=True` flag is present, since the source
applies that override after the verification string. -/
theorem claim_C7 (o : RawOffer) (ts : String) (src : Option String) (r : Canonical)
    (hflag : getVal o "verified" = .vBool false)
    (hs : getVal o "verification" = .vStr "verified")
    (hm : getVal o "is_vm_deverified" ≠ .vBool true)
    (hok : normalizeE o ts src = .ok r) :
    r.verified = 1 ∧ r.deverified = 0 := by
  obtain ⟨_, _, _, hw⟩ := normalizeE_fields hok
  have hvv : (if getVal o "verified" = Val.vNull then getVal o "is_verified"
      else getVal o "verified") = Val.vBool false := by
    rw [hflag]
    simp
  have htb : toBoolInt (Val.vBool false) = .ok (some 0) := rfl
  have hlow : pyLower (pyStrip "verified") = "verified" := by decide
  cases hdv : toBoolInt (getVal o "deverified") with
  | error e =>
    simp only [verifiedPair, hvv, htb, hdv] at hw
    exact Except.noConfusion hw
  | ok dv =>
    simp only [verifiedPair, hvv, htb, hdv, hs, hlow, hm, if_true, if_false,
      Option.getD_some, Except.ok.injEq, Prod.mk.injEq] at hw
    exact ⟨hw.1.symm, hw.2.symm⟩

/-- C7 counterexample: adding `is_vm_deverified=True` to the same record
yields `verified=1, deverified=1` — the string does not win over that
flag, refuting the claim over all records containing the two fields. -/
theorem claim_C7_counterexample :
    (normalizeE offerVerifStrVm "t" none).map (fun r => (r.verified, r.deverified)) =
      .ok (1, 1) ∧
    (normalizeE offerVerifStrVm "t" none).map (fun r => (r.verified, r.deverified)) ≠
      .ok (1, 0) := by
  refine ⟨by decide, by decide⟩

/-- C7 witness: with only the two fields present, the string wins. -/
theorem claim_C7_witness : recVerifStr.verified = 1 ∧ recVerifStr.deverified = 0 :=
  claim_C7 offerVerifStr "t" none recVerifStr (by decide) (by decide) (by decide) (by decide)

end VastWatch
